import Mathlib

/-!
Verification of the record-enrichment tool in `pull_viaf.py`.

The program reads MARC bibliographic records, resolves each record's
identifier against the VIAF authority service (`viaf_request`), splices up
to three new `024` identifier fields into the record (`update_record`), and
writes records to an output stream (`process_marc_records`).

This file gives a shallow embedding of the data model and of the three
functions, and proves (or refutes) the specification's claims about them.
Machine-level concerns (the actual HTTP transport, the binary MARC framing)
are abstracted: the resolver is modelled as a function of the received HTTP
response, and records as their ordered field lists.
-/

namespace PullViaf

/-- A MARC subfield: a (code, value) pair.  Mirrors `pymarc.Subfield('a', ...)`;
the code is conventionally a single character. -/
structure Subfield where
  code : String
  value : String
deriving DecidableEq, Repr

/-- A MARC field.  Control fields carry a raw value and no substructure;
variable fields carry two one-character indicators and a subfield list.
Mirrors `pymarc.Field`, whose `is_control_field()` distinguishes the two kinds. -/
inductive Field where
  | control (tag : String) (data : String)
  | variable (tag : String) (indicators : String × String) (subfields : List Subfield)
deriving DecidableEq, Repr

/-- `pymarc.Field.is_control_field()`: true exactly on control fields. -/
def Field.is_control_field : Field → Bool
  | .control _ _ => true
  | .variable _ _ _ => false

/-- A MARC record: an ordered sequence of fields (`record.fields`). -/
structure Record where
  fields : List Field
deriving DecidableEq, Repr

/-- The resolved identifier codes: the dictionary
`{"ISNI": ..., "VIAF": ..., "WKP": ...}` built by `viaf_request`, with
`none` standing for Python `None`.  (An empty string is also possible in
principle; the splicer's truthiness test treats it like `None`.) -/
structure ResponseCodes where
  ISNI : Option String
  VIAF : Option String
  WKP : Option String
deriving DecidableEq, Repr

/-- Python truthiness of a possibly-`None` string, as used in
`if response_codes["ISNI"]:` — `None` and `""` are falsy. -/
def truthy : Option String → Bool
  | none => false
  | some s => !(s == "")

/-- The loop of `update_record` lines 34–37: scan the fields with their
indices, remembering the index of the most recent control field, starting
from `-1`. -/
def last_fixed_go (fields : List Field) (i : Nat) (acc : Int) : Int :=
  match fields with
  | [] => acc
  | f :: rest => last_fixed_go rest (i + 1) (if f.is_control_field then (i : Int) else acc)

/-- `last_fixed_index` as computed in `update_record`: the index of the last
control field in the sequence, or `-1` if there is none. -/
def last_fixed_index (fields : List Field) : Int :=
  last_fixed_go fields 0 (-1)

/-- The up-to-three new `024` fields appended by `update_record`
(lines 45–75), in the fixed order ISNI, VIAF, Wikidata, each present only
when its code is truthy. -/
def new_024_fields (response_codes : ResponseCodes) : List Field :=
  (match response_codes.ISNI with
   | some s => if s = "" then [] else
       [Field.variable "024" ("7", " ") [⟨"a", s⟩, ⟨"2", "isni"⟩]]
   | none => [])
  ++ (match response_codes.VIAF with
   | some s => if s = "" then [] else
       [Field.variable "024" ("7", " ") [⟨"a", "http://viaf.org/viaf/" ++ s⟩, ⟨"2", "uri"⟩]]
   | none => [])
  ++ (match response_codes.WKP with
   | some s => if s = "" then [] else
       [Field.variable "024" ("8", " ") [⟨"a", "https://www.wikidata.org/wiki/" ++ s⟩]]
   | none => [])

/-- `update_record(record, response_codes)`: build
`record.fields[:last_fixed_index+1] + new 024 fields + record.fields[last_fixed_index+1:]`
and install it as the record's field list.  (`last_fixed_index + 1` is never
negative, so the Python slices coincide with `take`/`drop`.) -/
def update_record (record : Record) (response_codes : ResponseCodes) : Record :=
  let idx := (last_fixed_index record.fields + 1).toNat
  { record with
    fields := record.fields.take idx ++ new_024_fields response_codes
      ++ record.fields.drop idx }

/-- The state of the caller's record after `update_record` returns: line 79
(`record.fields = new_fields`) assigns the new field list into the record
object in place, so after the call the argument record holds exactly the
returned field sequence. -/
def update_record_post (record : Record) (response_codes : ResponseCodes) : Record :=
  update_record record response_codes

/-- `update_record` as invoked by the driver, whose `response_codes` argument
is the possibly-`None` result of `viaf_request`.  The body's first use of the
argument is the subscript `response_codes["ISNI"]` (line 46), which raises
`TypeError` when the argument is `None`; subscripting a possibly-absent
dictionary is therefore modelled as a fallible operation. -/
def update_record_py (record : Record) (response_codes : Option ResponseCodes) :
    Except String Record :=
  match response_codes with
  | none => .error "TypeError: NoneType object is not subscriptable"
  | some codes => .ok (update_record record codes)

/-- The record written by one iteration of the driver loop in
`process_marc_records` (lines 102–110): `update_record` is called on the
record (mutating it in place, line 79), its return value is bound to
`updated_record` and discarded, and `writer.write(record)` then writes the
same — now mutated — record object. -/
def driver_written_record (record : Record) (response_codes : ResponseCodes) : Record :=
  update_record record response_codes

/-- No field of the list is a control field. -/
def no_control_fields (fields : List Field) : Bool :=
  fields.all (fun f => !f.is_control_field)

/-- The record-structure invariant of the spec: all control fields form a
contiguous leading run — after dropping the leading control fields, no
control field remains. -/
def well_formed (fields : List Field) : Bool :=
  no_control_fields (fields.dropWhile (fun f => f.is_control_field))

/-- The index of the last control field of a list, if any: the reference
specification of what the `last_fixed_index` loop computes. -/
def lastControl : List Field → Option Nat
  | [] => none
  | f :: rest =>
      match lastControl rest with
      | some k => some (k + 1)
      | none => if f.is_control_field then some 0 else none

/-- A JSON value, as produced by `viaf_response.json()`.  Only the shapes the
resolver can encounter matter here: objects, arrays, strings and null. -/
inductive Json where
  | null
  | str (s : String)
  | arr (elems : List Json)
  | obj (entries : List (String × Json))

/-- Python dictionary key lookup on a parsed JSON object: `viaf_data.get(k)`
and the membership test `k in viaf_data`. -/
def jsonLookup : List (String × Json) → String → Option Json
  | [], _ => none
  | (k, v) :: rest, key => if k = key then some v else jsonLookup rest key

/-- Python subscripting `v[0]`: the first element of a list (raising
`IndexError` when the list is empty), the first character of a string
(raising `IndexError` when empty), and a `TypeError` on values that are not
subscriptable by an integer. -/
def index0 : Json → Except String Json
  | .arr [] => .error "IndexError"
  | .arr (x :: _) => .ok x
  | .str s => if s = "" then .error "IndexError" else .ok (.str (String.singleton s.front))
  | _ => .error "TypeError"

/-- The first element of a JSON array, when the value is a non-empty array.
Used to state what the resolver extracts for the `ISNI` and `WKP` keys. -/
def jsonHead : Json → Option Json
  | .arr (x :: _) => some x
  | _ => none

/-- The dictionary `{"ISNI": ..., "VIAF": ..., "WKP": ...}` returned by a
successful resolution; each value is the extracted JSON value or Python
`None`. -/
structure ResponseDict where
  ISNI : Option Json
  VIAF : Option Json
  WKP : Option Json

/-- The HTTP response received from the VIAF service: its status code, and
the outcome of calling `.json()` on it — a parsed value, or the
`ValueError` that a malformed body raises. -/
structure HttpResponse where
  status_code : Nat
  body_json : Except String Json

/-- `viaf_request`, as a function of the HTTP response it receives (the
network call itself is abstracted into the argument).

On status 200 it parses the body (a parse failure is caught by the
`except ValueError` branch, which returns `None`), then extracts the three
codes: `viaf_data.get('ISNI', [''])[0] if 'ISNI' in viaf_data else None`,
`viaf_data.get('viafID', '') if 'viafID' in viaf_data else None`, and the
`WKP` analogue of `ISNI`.  The `[0]` subscripts are *inside* the `try`
block but raise `IndexError`/`TypeError`, which the `except ValueError`
clause does not catch, so those propagate as `.error`.  On any other
status it prints a message and falls off the end, returning `None`. -/
def viaf_request (viaf_response : HttpResponse) : Except String (Option ResponseDict) :=
  if viaf_response.status_code = 200 then
    match viaf_response.body_json with
    | .error _ => .ok none
    | .ok viaf_data =>
        match viaf_data with
        | .obj entries =>
            match (match jsonLookup entries "ISNI" with
                   | some v => (index0 v).map some
                   | none => .ok none : Except String (Option Json)) with
            | .error e => .error e
            | .ok isni_code =>
                let viaf_code : Option Json := jsonLookup entries "viafID"
                match (match jsonLookup entries "WKP" with
                       | some v => (index0 v).map some
                       | none => .ok none : Except String (Option Json)) with
                | .error e => .error e
                | .ok wkp_code =>
                    .ok (some { ISNI := isni_code, VIAF := viaf_code, WKP := wkp_code })
        | _ => .error "AttributeError"
  else .ok none

/-- Concrete example record: one `001` control field and one `245` variable
field, as in the spec's worked example. -/
def rEx : Record := ⟨[Field.control "001" "id1", Field.variable "245" ("0", "0") []]⟩

/-- Concrete example codes: all three identifiers present. -/
def cEx : ResponseCodes := ⟨some "0000000123456789", some "12345", some "Q42"⟩

/-- Concrete example codes: only the ISNI identifier present. -/
def cIsniOnly : ResponseCodes := ⟨some "0000000123456789", none, none⟩

/-- Concrete example codes: all three identifiers absent. -/
def cAbsent : ResponseCodes := ⟨none, none, none⟩

/-- Concrete example response: HTTP 200 whose body is `{"viafID": "999"}`. -/
def respEx999 : HttpResponse := ⟨200, .ok (Json.obj [("viafID", Json.str "999")])⟩

/-- Concrete example response: HTTP 404 (body irrelevant). -/
def respEx404 : HttpResponse := ⟨404, .ok Json.null⟩

/- ### Helper lemmas about the last-control-field scan -/

theorem last_fixed_go_append (l₁ l₂ : List Field) (i : Nat) (acc : Int) :
    last_fixed_go (l₁ ++ l₂) i acc = last_fixed_go l₂ (i + l₁.length) (last_fixed_go l₁ i acc) := by
  induction l₁ generalizing i acc with
  | nil => simp [last_fixed_go]
  | cons f t ih =>
      have harg : i + 1 + t.length = i + (f :: t).length := by
        simp only [List.length_cons]
        omega
      rw [List.cons_append, last_fixed_go, ih, harg]
      rfl

theorem last_fixed_go_no_control (fs : List Field) (i : Nat) (acc : Int)
    (h : ∀ f ∈ fs, f.is_control_field = false) :
    last_fixed_go fs i acc = acc := by
  induction fs generalizing i acc with
  | nil => rfl
  | cons f t ih =>
      have hf := h f (List.mem_cons_self f t)
      simp only [last_fixed_go, hf, Bool.false_eq_true, if_false]
      exact ih _ _ fun g hg => h g (List.mem_cons_of_mem f hg)

theorem last_fixed_go_all_control (fs : List Field) (i : Nat) (acc : Int)
    (hne : fs ≠ []) (h : ∀ f ∈ fs, f.is_control_field = true) :
    last_fixed_go fs i acc = (i : Int) + fs.length - 1 := by
  induction fs generalizing i acc with
  | nil => exact absurd rfl hne
  | cons f t ih =>
      have hf := h f (List.mem_cons_self f t)
      simp only [last_fixed_go, hf, if_true]
      by_cases ht : t = []
      · subst ht
        simp [last_fixed_go]
      · have := ih (i + 1) ((i : Int)) ht fun g hg => h g (List.mem_cons_of_mem f hg)
        rw [this]
        simp only [List.length_cons]
        push_cast
        ring

theorem last_fixed_go_eq_lastControl (fs : List Field) (i : Nat) (acc : Int) :
    last_fixed_go fs i acc =
      (match lastControl fs with
       | some k => ((i + k : Nat) : Int)
       | none => acc) := by
  induction fs generalizing i acc with
  | nil => rfl
  | cons f t ih =>
      rw [last_fixed_go, ih]
      cases hlc : lastControl t with
      | some k =>
          simp only [lastControl, hlc]
          congr 1
          omega
      | none =>
          cases hf : f.is_control_field <;> simp [lastControl, hlc, hf]

theorem lastControl_none (fs : List Field) (h : lastControl fs = none) :
    ∀ f ∈ fs, f.is_control_field = false := by
  induction fs with
  | nil => intro f hf; cases hf
  | cons f t ih =>
      intro g hg
      rw [lastControl] at h
      cases hlc : lastControl t with
      | some k => rw [hlc] at h; cases h
      | none =>
          rw [hlc] at h
          cases hf : f.is_control_field with
          | true => rw [hf] at h; simp at h
          | false =>
              rcases List.mem_cons.mp hg with rfl | hg'
              · exact hf
              · exact ih (by rw [hlc]) g hg'

theorem lastControl_isSome_of_mem (fs : List Field) (f : Field) (hf : f ∈ fs)
    (hc : f.is_control_field = true) : ∃ k, lastControl fs = some k := by
  cases hlc : lastControl fs with
  | some k => exact ⟨k, rfl⟩
  | none =>
      have := lastControl_none fs hlc f hf
      rw [hc] at this
      cases this

theorem lastControl_spec (fs : List Field) (k : Nat) (h : lastControl fs = some k) :
    ∃ hk : k < fs.length,
      fs[k].is_control_field = true ∧
      ∀ j, ∀ hj : j < fs.length, k < j → fs[j].is_control_field = false := by
  induction fs generalizing k with
  | nil => cases h
  | cons f t ih =>
      rw [lastControl] at h
      cases hlc : lastControl t with
      | some k' =>
          rw [hlc] at h
          injection h with h
          subst h
          obtain ⟨hk', hc', ha'⟩ := ih k' hlc
          refine ⟨by simpa using Nat.succ_lt_succ hk', by simpa using hc', ?_⟩
          intro j hj hkj
          cases j with
          | zero => omega
          | succ j' =>
              have hj' : j' < t.length := by simpa using hj
              simpa using ha' j' hj' (by omega)
      | none =>
          rw [hlc] at h
          cases hf : f.is_control_field with
          | false => rw [hf] at h; cases h
          | true =>
              rw [hf] at h
              simp only [if_true] at h
              injection h with h
              subst h
              refine ⟨by simp, by simpa using hf, ?_⟩
              intro j hj hkj
              cases j with
              | zero => omega
              | succ j' =>
                  have hj' : j' < t.length := by simpa using hj
                  have : t[j'] ∈ t := List.getElem_mem hj'
                  simpa using lastControl_none t hlc _ this

/-- When the record has a last control field at index `k`, the splice index
computed from `last_fixed_index` is `k + 1`. -/
theorem splice_idx_of_lastControl_some (fs : List Field) (k : Nat)
    (h : lastControl fs = some k) :
    (last_fixed_index fs + 1).toNat = k + 1 := by
  rw [last_fixed_index, last_fixed_go_eq_lastControl, h]
  simp

/-- When the record has no control field, the splice index is `0`. -/
theorem splice_idx_of_lastControl_none (fs : List Field)
    (h : lastControl fs = none) :
    (last_fixed_index fs + 1).toNat = 0 := by
  rw [last_fixed_index, last_fixed_go_eq_lastControl, h]
  rfl

/- ### Helper lemmas about lists and the new 024 fields -/

theorem dropWhile_append_all {α : Type} (p : α → Bool) (l₁ l₂ : List α)
    (h : ∀ x ∈ l₁, p x = true) :
    (l₁ ++ l₂).dropWhile p = l₂.dropWhile p := by
  induction l₁ with
  | nil => rfl
  | cons a t ih =>
      rw [List.cons_append, List.dropWhile_cons, h a (List.mem_cons_self a t)]
      simp only [if_true]
      exact ih fun x hx => h x (List.mem_cons_of_mem a hx)

theorem dropWhile_eq_self_of_all_neg {α : Type} (p : α → Bool) (l : List α)
    (h : ∀ x ∈ l, p x = false) : l.dropWhile p = l := by
  cases l with
  | nil => rfl
  | cons a t =>
      rw [List.dropWhile_cons, h a (List.mem_cons_self a t)]
      simp

/-- Every field built by `new_024_fields` is a variable field. -/
theorem new_024_no_control (c : ResponseCodes) :
    ∀ f ∈ new_024_fields c, f.is_control_field = false := by
  intro f hf
  rcases c with ⟨i, v, w⟩
  rcases i with _ | si <;> rcases v with _ | sv <;> rcases w with _ | sw <;>
    simp only [new_024_fields] at hf <;>
    (try split_ifs at hf) <;>
    simp_all [Field.is_control_field] <;>
    (try casesm* _ ∨ _) <;> subst_vars <;> rfl

/-- `new_024_fields` produces at most three fields. -/
theorem new_024_length_le (c : ResponseCodes) : (new_024_fields c).length ≤ 3 := by
  rcases c with ⟨i, v, w⟩
  rcases i with _ | si <;> rcases v with _ | sv <;> rcases w with _ | sw <;>
    simp only [new_024_fields, List.length_append] <;>
    (try split_ifs) <;> simp

/-- All three codes absent (or empty): no new fields are built. -/
theorem new_024_eq_nil (c : ResponseCodes)
    (h1 : truthy c.ISNI = false) (h2 : truthy c.VIAF = false) (h3 : truthy c.WKP = false) :
    new_024_fields c = [] := by
  rcases c with ⟨i, v, w⟩
  rcases i with _ | si <;> rcases v with _ | sv <;> rcases w with _ | sw <;>
    simp_all [truthy, new_024_fields]

/-- The field list of the spliced record, as a take/insert/drop decomposition
at the splice index. -/
theorem update_record_fields_eq (r : Record) (c : ResponseCodes) :
    (update_record r c).fields =
      r.fields.take ((last_fixed_index r.fields + 1).toNat) ++ new_024_fields c
        ++ r.fields.drop ((last_fixed_index r.fields + 1).toNat) := rfl

/-- The original fields survive the splice as a sublist: same relative order,
unchanged contents. -/
theorem sublist_update (r : Record) (c : ResponseCodes) :
    List.Sublist r.fields (update_record r c).fields := by
  rw [update_record_fields_eq, List.append_assoc]
  have h2 : List.Sublist (r.fields.drop ((last_fixed_index r.fields + 1).toNat))
      (new_024_fields c ++ r.fields.drop ((last_fixed_index r.fields + 1).toNat)) :=
    List.sublist_append_right _ _
  have h3 := List.Sublist.append_left h2 (r.fields.take ((last_fixed_index r.fields + 1).toNat))
  rw [List.take_append_drop] at h3
  exact h3

/-- A well-formed field list splits into a leading run of control fields
followed by variable fields only. -/
theorem well_formed_decomp (fs : List Field) (h : well_formed fs = true) :
    ∃ cpart vpart : List Field,
      fs = cpart ++ vpart ∧
      (∀ f ∈ cpart, f.is_control_field = true) ∧
      (∀ f ∈ vpart, f.is_control_field = false) := by
  refine ⟨fs.takeWhile (fun f => f.is_control_field),
          fs.dropWhile (fun f => f.is_control_field),
          (List.takeWhile_append_dropWhile (fun f => f.is_control_field) fs).symm, ?_, ?_⟩
  · intro f hf
    exact List.mem_takeWhile_imp hf
  · intro f hf
    rw [well_formed, no_control_fields, List.all_eq_true] at h
    simpa using h f hf

/-- Over a control-prefix/variable-suffix decomposition, the splice index is
the length of the control prefix. -/
theorem splice_idx_of_decomp (cpart vpart : List Field)
    (hc : ∀ f ∈ cpart, f.is_control_field = true)
    (hv : ∀ f ∈ vpart, f.is_control_field = false) :
    (last_fixed_index (cpart ++ vpart) + 1).toNat = cpart.length := by
  rw [last_fixed_index, last_fixed_go_append, last_fixed_go_no_control vpart _ _ hv]
  by_cases hne : cpart = []
  · subst hne; rfl
  · rw [last_fixed_go_all_control cpart 0 (-1) hne hc]
    omega

/- ### Claim theorems -/

/-- **C1.** For every record with at least one control field and every codes
argument with a non-empty subset of codes present, `update_record` inserts
the new fields immediately after the last control field in the field
sequence (the index `k` below carries a control field and nothing after it
does), and the relative order of all pre-existing fields is unchanged; if
the record has no control fields, the insertion point is index 0. -/
theorem update_record_inserts_after_last_control (r : Record) (c : ResponseCodes)
    (_hcodes : truthy c.ISNI = true ∨ truthy c.VIAF = true ∨ truthy c.WKP = true) :
    ((∃ f ∈ r.fields, f.is_control_field = true) →
      ∃ k, ∃ hk : k < r.fields.length,
        r.fields[k].is_control_field = true ∧
        (∀ j, ∀ hj : j < r.fields.length, k < j → r.fields[j].is_control_field = false) ∧
        (update_record r c).fields =
          r.fields.take (k + 1) ++ new_024_fields c ++ r.fields.drop (k + 1) ∧
        List.Sublist r.fields (update_record r c).fields) ∧
    ((∀ f ∈ r.fields, f.is_control_field = false) →
      (update_record r c).fields = new_024_fields c ++ r.fields) := by
  constructor
  · rintro ⟨f, hf, hc⟩
    obtain ⟨k, hlc⟩ := lastControl_isSome_of_mem r.fields f hf hc
    obtain ⟨hk, hctrl, hafter⟩ := lastControl_spec r.fields k hlc
    refine ⟨k, hk, hctrl, fun j hj hkj => hafter j hj hkj, ?_, sublist_update r c⟩
    rw [update_record_fields_eq, splice_idx_of_lastControl_some r.fields k hlc]
  · intro h
    have hlc : lastControl r.fields = none := by
      cases hlcc : lastControl r.fields with
      | none => rfl
      | some k =>
          obtain ⟨hk, hctrl, -⟩ := lastControl_spec r.fields k hlcc
          have hmem := h _ (List.getElem_mem hk)
          rw [hctrl] at hmem
          cases hmem
    rw [update_record_fields_eq, splice_idx_of_lastControl_none r.fields hlc]
    simp

/-- Witness for C1: the example record (one `001` control field, one `245`
variable field) with only the ISNI code present satisfies the hypothesis
and the conclusion. -/
theorem update_record_inserts_after_last_control_witness :
    (truthy cIsniOnly.ISNI = true ∨ truthy cIsniOnly.VIAF = true ∨ truthy cIsniOnly.WKP = true) ∧
    (((∃ f ∈ rEx.fields, f.is_control_field = true) →
      ∃ k, ∃ hk : k < rEx.fields.length,
        rEx.fields[k].is_control_field = true ∧
        (∀ j, ∀ hj : j < rEx.fields.length, k < j → rEx.fields[j].is_control_field = false) ∧
        (update_record rEx cIsniOnly).fields =
          rEx.fields.take (k + 1) ++ new_024_fields cIsniOnly ++ rEx.fields.drop (k + 1) ∧
        List.Sublist rEx.fields (update_record rEx cIsniOnly).fields) ∧
    ((∀ f ∈ rEx.fields, f.is_control_field = false) →
      (update_record rEx cIsniOnly).fields = new_024_fields cIsniOnly ++ rEx.fields)) :=
  ⟨Or.inl (by decide),
   update_record_inserts_after_last_control rEx cIsniOnly (Or.inl (by decide))⟩

/-- **C2.** For every well-formed record (control fields form a contiguous
leading run) and every codes argument, the spliced record still satisfies
the control-field-contiguity invariant. -/
theorem update_record_preserves_well_formed (r : Record) (c : ResponseCodes)
    (h : well_formed r.fields = true) :
    well_formed (update_record r c).fields = true := by
  obtain ⟨cpart, vpart, hfs, hc, hv⟩ := well_formed_decomp r.fields h
  rw [update_record_fields_eq, hfs, splice_idx_of_decomp cpart vpart hc hv,
    List.take_left, List.drop_left, List.append_assoc, well_formed,
    dropWhile_append_all _ cpart _ hc]
  have hall : ∀ f ∈ new_024_fields c ++ vpart, f.is_control_field = false := by
    intro f hf
    rcases List.mem_append.mp hf with hf | hf
    · exact new_024_no_control c f hf
    · exact hv f hf
  rw [dropWhile_eq_self_of_all_neg _ _ hall, no_control_fields, List.all_eq_true]
  intro f hf
  simpa using hall f hf

/-- Witness for C2: the example record is well-formed, and so is its splice
with all three codes present. -/
theorem update_record_preserves_well_formed_witness :
    well_formed rEx.fields = true ∧ well_formed (update_record rEx cEx).fields = true :=
  ⟨by decide, update_record_preserves_well_formed rEx cEx (by decide)⟩

/-- **C3, counterexample.** The claim that `update_record` leaves its input
record's field sequence unchanged is false: line 79 assigns the new field
list into the record in place, so after the call on the example record with
an ISNI code the record's field sequence differs from its pre-call value. -/
theorem update_record_mutates_input_cex :
    ¬ ((update_record_post rEx cIsniOnly).fields = rEx.fields) := by decide

/-- **C3, amended.** `update_record` performs the insertion by mutating the
record in place and returning that same record: the post-call state of the
input equals the returned record, and the pre-existing fields survive in
their original order with unchanged contents (the original field sequence is
a sublist of the result). -/
theorem update_record_in_place_insertion (r : Record) (c : ResponseCodes) :
    update_record_post r c = update_record r c ∧
    List.Sublist r.fields (update_record_post r c).fields :=
  ⟨rfl, sublist_update r c⟩

/-- **C4, counterexample.** The claim that the driver writes the original
unmodified record is false: with all three codes present, the record written
for the example record has the spliced field sequence, not the as-read one. -/
theorem driver_writes_spliced_cex :
    ¬ ((driver_written_record rEx cEx).fields = rEx.fields) := by decide

/-- **C4, amended.** The driver discards `update_record`'s return value, but
`update_record` mutated the record in place, so the record written to the
output stream carries the spliced field sequence; it equals the as-read
sequence exactly when no new field was built (all codes absent or empty). -/
theorem driver_written_record_spliced (r : Record) (c : ResponseCodes) :
    (driver_written_record r c).fields = (update_record r c).fields ∧
    ((driver_written_record r c).fields = r.fields ↔ new_024_fields c = []) := by
  refine ⟨rfl, ?_⟩
  constructor
  · intro h
    have hlen := congrArg List.length h
    rw [show driver_written_record r c = update_record r c from rfl,
      update_record_fields_eq] at hlen
    simp only [List.length_append, List.length_take, List.length_drop] at hlen
    have hzero : (new_024_fields c).length = 0 := by omega
    exact List.length_eq_zero.mp hzero
  · intro h
    show (update_record r c).fields = r.fields
    rw [update_record_fields_eq, h, List.append_nil, List.take_append_drop]

/-- **C5.** The driver may hand `update_record` the `None` that `viaf_request`
returns on failure; the body then evaluates `response_codes["ISNI"]`
(line 46), which raises `TypeError` instead of treating the three codes as
absent. -/
theorem update_record_py_none_raises (r : Record) :
    update_record_py r none =
      Except.error "TypeError: NoneType object is not subscriptable" := rfl

/-- **C6.** For every record and codes argument, `update_record` builds at
most three new variable fields, in the fixed order ISNI, VIAF, Wikidata,
each included only if its code is present and non-empty, with exactly the
claimed tags, indicators and subfields, and splices them in as one block. -/
theorem update_record_builds_exact_fields (r : Record) (c : ResponseCodes) :
    ∃ inserted : List Field,
      (update_record r c).fields =
        r.fields.take ((last_fixed_index r.fields + 1).toNat) ++ inserted
          ++ r.fields.drop ((last_fixed_index r.fields + 1).toNat) ∧
      inserted =
        (match c.ISNI with
         | some s => if s = "" then [] else
             [Field.variable "024" ("7", " ") [⟨"a", s⟩, ⟨"2", "isni"⟩]]
         | none => [])
        ++ (match c.VIAF with
         | some s => if s = "" then [] else
             [Field.variable "024" ("7", " ") [⟨"a", "http://viaf.org/viaf/" ++ s⟩, ⟨"2", "uri"⟩]]
         | none => [])
        ++ (match c.WKP with
         | some s => if s = "" then [] else
             [Field.variable "024" ("8", " ") [⟨"a", "https://www.wikidata.org/wiki/" ++ s⟩]]
         | none => []) ∧
      inserted.length ≤ 3 ∧
      ∀ f ∈ inserted, f.is_control_field = false :=
  ⟨new_024_fields c, update_record_fields_eq r c, rfl, new_024_length_le c,
   new_024_no_control c⟩

/-- **C7.** Splicing with all three codes absent is an identity on the field
sequence. -/
theorem update_record_absent_codes_identity (r : Record) (c : ResponseCodes)
    (h1 : c.ISNI = none) (h2 : c.VIAF = none) (h3 : c.WKP = none) :
    (update_record r c).fields = r.fields := by
  rw [update_record_fields_eq,
    new_024_eq_nil c (by rw [h1]; rfl) (by rw [h2]; rfl) (by rw [h3]; rfl),
    List.append_nil, List.take_append_drop]

/-- Witness for C7: the example record with the all-absent codes. -/
theorem update_record_absent_codes_identity_witness :
    cAbsent.ISNI = none ∧ cAbsent.VIAF = none ∧ cAbsent.WKP = none ∧
    (update_record rEx cAbsent).fields = rEx.fields :=
  ⟨rfl, rfl, rfl, update_record_absent_codes_identity rEx cAbsent rfl rfl rfl⟩

/-- **C8.** For every HTTP 200 response whose body parses as a JSON object
(with the `ISNI`/`WKP` keys, when present, holding non-empty arrays so that a
first element exists), `viaf_request` returns the codes dictionary with ISNI
the first element of the array at key `ISNI` if present else absent, VIAF
the value at key `viafID` if present else absent, and WKP the first element
of the array at key `WKP` if present else absent. -/
theorem viaf_request_extraction (resp : HttpResponse) (entries : List (String × Json))
    (hstatus : resp.status_code = 200)
    (hbody : resp.body_json = Except.ok (Json.obj entries))
    (hisni : ∀ v, jsonLookup entries "ISNI" = some v → ∃ x xs, v = Json.arr (x :: xs))
    (hwkp : ∀ v, jsonLookup entries "WKP" = some v → ∃ x xs, v = Json.arr (x :: xs)) :
    viaf_request resp =
      Except.ok (some { ISNI := (jsonLookup entries "ISNI").bind jsonHead,
                        VIAF := jsonLookup entries "viafID",
                        WKP := (jsonLookup entries "WKP").bind jsonHead }) := by
  cases hI : jsonLookup entries "ISNI" with
  | none =>
      cases hW : jsonLookup entries "WKP" with
      | none => simp [viaf_request, hstatus, hbody, hI, hW, jsonHead]
      | some w =>
          obtain ⟨x, xs, rfl⟩ := hwkp w hW
          simp [viaf_request, hstatus, hbody, hI, hW, jsonHead, index0, Except.map]
  | some v =>
      obtain ⟨x, xs, rfl⟩ := hisni v hI
      cases hW : jsonLookup entries "WKP" with
      | none => simp [viaf_request, hstatus, hbody, hI, hW, jsonHead, index0, Except.map]
      | some w =>
          obtain ⟨y, ys, rfl⟩ := hwkp w hW
          simp [viaf_request, hstatus, hbody, hI, hW, jsonHead, index0, Except.map]

/-- Witness for C8: HTTP 200 with body `{"viafID": "999"}` resolves to
`{ISNI: None, VIAF: "999", WKP: None}`. -/
theorem viaf_request_extraction_witness :
    viaf_request respEx999 =
      Except.ok (some { ISNI := none, VIAF := some (Json.str "999"), WKP := none }) := by
  have h := viaf_request_extraction respEx999 [("viafID", Json.str "999")] rfl rfl
    (by intro v hv
        rw [show jsonLookup [("viafID", Json.str "999")] "ISNI" = none from rfl] at hv
        exact Option.noConfusion hv)
    (by intro v hv
        rw [show jsonLookup [("viafID", Json.str "999")] "WKP" = none from rfl] at hv
        exact Option.noConfusion hv)
  exact h

/-- **C9.** On a non-200 response, and on a 200 response whose body fails to
parse (the `ValueError` branch), `viaf_request` returns `None` — a failure
with no ISNI/VIAF/WKP codes — rather than raising. -/
theorem viaf_request_failure_returns_none (resp : HttpResponse)
    (h : resp.status_code ≠ 200 ∨ ∃ e, resp.body_json = Except.error e) :
    viaf_request resp = Except.ok none := by
  rcases h with h | ⟨e, he⟩
  · simp [viaf_request, h]
  · by_cases hs : resp.status_code = 200
    · simp [viaf_request, hs, he]
    · simp [viaf_request, hs]

/-- Witness for C9: an HTTP 404 response yields `None` without raising. -/
theorem viaf_request_failure_returns_none_witness :
    viaf_request respEx404 = Except.ok none :=
  viaf_request_failure_returns_none respEx404 (Or.inl (by decide))

/-- **C10.** A 200 response whose body is the well-formed JSON object
`{"ISNI": []}` (or `{"WKP": []}`) makes `viaf_request` raise an uncaught
`IndexError` when taking `[0]`: the `except` branch only catches the
`ValueError` of JSON parsing, so extraction is not total over well-formed
JSON bodies. -/
theorem viaf_request_empty_array_raises :
    viaf_request ⟨200, Except.ok (Json.obj [("ISNI", Json.arr [])])⟩ =
        Except.error "IndexError" ∧
    viaf_request ⟨200, Except.ok (Json.obj [("WKP", Json.arr [])])⟩ =
        Except.error "IndexError" :=
  ⟨rfl, rfl⟩

end PullViaf
